import Mathlib

/-!
Shallow embedding of lib/Sema/SemaInject.cpp: the declaration-injection
engine (capture collection, placeholder creation, the source code injector
with its remap table and placeholder substitution, fragment injection,
declaration copying with modification traits, and batch application).
Definitions are translated from the source; the few helpers that live in
TreeTransform.h (outside this repository snapshot) are modelled from the
spec and marked so in their doc comments.
-/

namespace SemaInject

/-! Capture collection: FindCapturesInScope (SemaInject.cpp:36-46),
FindCaptures (50-59), ReferenceCaptures (63-73),
GetVariableFromCapture (76-80). -/

structure SVar where
  varId : Nat
  name : Nat
  isLocalVarDeclOrParm : Bool
  hasInit : Bool
deriving DecidableEq, Repr

structure SScope where
  entity : Option Nat
  scopeDecls : List SVar
deriving DecidableEq, Repr

/-- Embeds FindCapturesInScope (SemaInject.cpp:36-46): keep exactly the
local variables and parameters that have an initializer. -/
def findCapturesInScope (s : SScope) : List SVar :=
  s.scopeDecls.filter fun v => v.isLocalVarDeclOrParm && v.hasInit

/-- Embeds FindCaptures (SemaInject.cpp:50-59): walk the scope chain while
the scope entity differs from the enclosing function, collecting captures
in each scope; after the loop, the scope whose entity is the function (when
one was found) is searched as well. -/
def findCaptures : List SScope → Option Nat → List SVar
  | [], _ => []
  | s :: rest, fn =>
    if s.entity = fn then findCapturesInScope s
    else findCapturesInScope s ++ findCaptures rest fn

inductive CExprNode
  | declRef (v : SVar)
  | lvalueToRValue (sub : CExprNode)
deriving DecidableEq, Repr

/-- Embeds ReferenceCaptures (SemaInject.cpp:63-73): each captured variable
becomes a DeclRefExpr wrapped in an lvalue-to-rvalue implicit cast, so a
value is read rather than an address taken. -/
def referenceCaptures (vars : List SVar) : List CExprNode :=
  vars.map fun v => CExprNode.lvalueToRValue (CExprNode.declRef v)

/-- Embeds GetVariableFromCapture (SemaInject.cpp:76-80). -/
def getVariableFromCapture : CExprNode → Option SVar
  | CExprNode.lvalueToRValue (CExprNode.declRef v) => some v
  | _ => none

/-- Definition following the wording of claim C8 only, for comparison with
findCaptures: scopes up to but NOT including the scope of the enclosing
function are searched. -/
def findCapturesClaimExclusive : List SScope → Option Nat → List SVar
  | [], _ => []
  | s :: rest, fn =>
    if s.entity = fn then []
    else findCapturesInScope s ++ findCapturesClaimExclusive rest fn

/-- Scopes actually visited by the walk of FindCaptures: every scope up to
and including the first one whose entity is the enclosing function. -/
def scopesThroughFunction : List SScope → Option Nat → List SScope
  | [], _ => []
  | s :: rest, fn =>
    if s.entity = fn then [s] else s :: scopesThroughFunction rest fn

/-- Concatenation of the captures found in a list of scopes, in order. -/
def collectScopes : List SScope → List SVar
  | [] => []
  | s :: rest => findCapturesInScope s ++ collectScopes rest

/-! Placeholder creation: CreatePlaceholder (SemaInject.cpp:88-104),
CreatePlaceholders (106-111). -/

inductive PType
  | dependent
  | concrete (t : Nat)
deriving DecidableEq, Repr

inductive PInit
  | sentinel
  | plainExpr (e : Nat)
deriving DecidableEq, Repr

structure PlaceholderDecl where
  name : Nat
  ty : PType
  storageStatic : Bool
  isConstexpr : Bool
  implicit : Bool
  init : PInit
  referenced : Bool
  used : Bool
deriving DecidableEq, Repr

/-- Embeds CreatePlaceholder (SemaInject.cpp:88-104): a constexpr static
variable in the fragment context, with the same identifier as the captured
variable, of dependent type, implicit, with an OpaqueValueExpr sentinel as
initializer, marked referenced and used. -/
def createPlaceholder (v : SVar) : PlaceholderDecl :=
  ⟨v.name, PType.dependent, true, true, true, PInit.sentinel, true, true⟩

/-- Embeds CreatePlaceholders (SemaInject.cpp:106-111): one placeholder per
capture expression, in capture order; each capture yields its variable via
GetVariableFromCapture. -/
def createPlaceholders (captures : List CExprNode) : List PlaceholderDecl :=
  captures.filterMap fun e => (getVariableFromCapture e).map createPlaceholder

/-! Placeholder substitution: SourceCodeInjector::AddReplacements
(SemaInject.cpp:484-507) and TransformDeclRefExpr (703-721). -/

structure TypedValue where
  ty : PType
  val : Int
deriving DecidableEq, Repr

inductive OExpr
  | declRef (d : Nat)
  | wrapped (ty : PType) (source : OExpr)
  | constantExpr (operand : OExpr) (value : Int)
  | rebuiltRef (d : Nat)
deriving DecidableEq, Repr

abbrev PlaceholderValues := List (Nat × TypedValue)

/-- Embeds SourceCodeInjector::AddReplacements (SemaInject.cpp:484-507):
pair the i-th placeholder declaration of the fragment context with the i-th
field type of the reflection class and the i-th captured value, for as many
entries as there are captures. -/
def addReplacements (fragmentDecls : List Nat) (fieldTypes : List PType)
    (captures : List Int) : PlaceholderValues :=
  (fragmentDecls.zip (fieldTypes.zip captures)).map fun p => (p.1, ⟨p.2.1, p.2.2⟩)

/-- Embeds SourceCodeInjector::TransformDeclRefExpr (SemaInject.cpp:703-721):
with replacement active, a reference to a registered placeholder becomes a
constant-value node (CXXConstantExpr) carrying the captured typed value and
wrapping the original reference (via an OpaqueValueExpr, kept only for
diagnostics); any other reference is rebuilt by the base transform. -/
def transformDeclRefExpr (replacePlaceholders : Bool) (pv : PlaceholderValues)
    (e : Nat) : OExpr :=
  if replacePlaceholders then
    match pv.find? fun q => q.1 == e with
    | some q => OExpr.constantExpr (OExpr.wrapped q.2.ty (OExpr.declRef e)) q.2.val
    | none => OExpr.rebuiltRef e
  else OExpr.rebuiltRef e

/-! Declaration reference resolution: SourceCodeInjector::TransformDecl
(SemaInject.cpp:528-580) and LookupDecl (591-621). -/

inductive SKind
  | methodDecl (isInstance : Bool)
  | fieldDecl
  | otherDecl
deriving DecidableEq, Repr

structure SDecl where
  declId : Nat
  name : Option Nat
  kind : SKind
  ctxChain : List Nat
deriving DecidableEq, Repr

structure LookupResult where
  result : Option SDecl
  diag : Option Nat
  fatal : Bool
deriving DecidableEq, Repr

/-- Embeds SourceCodeInjector::LookupDecl (SemaInject.cpp:591-621): an
unnamed declaration is returned as is; an empty lookup returns the original
declaration, emitting err_capture_non_static with selector 0 when the
original is a non-instance method and selector 1 when it is a field; more
than one candidate is llvm_unreachable (no overload resolution); otherwise
the single candidate found in the destination context is returned. -/
def lookupDecl (destLookup : Nat → List SDecl) (d : SDecl) : LookupResult :=
  match d.name with
  | none => ⟨some d, none, false⟩
  | some nm =>
    match destLookup nm with
    | [] =>
      let badCapture : Option Nat :=
        match d.kind with
        | SKind.methodDecl inst => if inst then none else some 0
        | SKind.fieldDecl => some 1
        | SKind.otherDecl => none
      ⟨some d, badCapture, false⟩
    | [x] => ⟨some x, none, false⟩
    | _ => ⟨none, none, true⟩

abbrev RemapTable := List (Nat × SDecl)

/-- Embeds the TransformedLocalDecls map lookup performed first by
TransformDecl (SemaInject.cpp:532-536). -/
def findRemap (tbl : RemapTable) (i : Nat) : Option SDecl :=
  match tbl.find? fun p => p.1 == i with
  | some p => some p.2
  | none => none

structure SourceInfo where
  srcId : Nat
  srcParent : Option Nat
deriving DecidableEq, Repr

/-- Modelled from the spec: TransformLocalDecl lives in TreeTransform.h,
which is not part of this repository snapshot. Per the spec, section 4.3
step 2, it recursively clones the declaration into the destination context
and registers the mapping in the remap table; the recursive clone itself is
abstracted as the function cl. -/
def transformLocalDecl (cl : SDecl → SDecl) (tbl : RemapTable) (d : SDecl) :
    SDecl × RemapTable :=
  (cl d, (d.declId, cl d) :: tbl)

/-- Embeds the membership walk of TransformDecl (SemaInject.cpp:540-546):
starting from the declaration context of D, walk parents looking for the
source context (here: the source context occurs in the owner chain). -/
def inSourceContext (src : Option SourceInfo) (d : SDecl) : Bool :=
  match src with
  | some s => d.ctxChain.contains s.srcId
  | none => false

/-- Embeds the sibling test of TransformDecl (SemaInject.cpp:548): the
immediate owner of D equals the parent of the source context. -/
def siblingOfSource (src : Option SourceInfo) (d : SDecl) : Bool :=
  match src with
  | some s => d.ctxChain.head? == s.srcParent
  | none => false

structure TransformOutcome where
  result : Option SDecl
  diag : Option Nat
  fatal : Bool
deriving DecidableEq, Repr

def ofLookup (r : LookupResult) : TransformOutcome := ⟨r.result, r.diag, r.fatal⟩

def ofLocal (p : SDecl × RemapTable) : TransformOutcome × RemapTable :=
  (⟨some p.1, none, false⟩, p.2)

/-- Embeds SourceCodeInjector::TransformDecl (SemaInject.cpp:528-580), in
source order: first the remap-table lookup, then the local transform (with
registration) for members of the source context, then the name lookup for
members of the parent of the source context, otherwise the original
declaration is reused unchanged. -/
def transformDecl (src : Option SourceInfo) (destL : Nat → List SDecl)
    (cl : SDecl → SDecl) (tbl : RemapTable) (d : SDecl) :
    TransformOutcome × RemapTable :=
  match findRemap tbl d.declId with
  | some r => (⟨some r, none, false⟩, tbl)
  | none =>
    if inSourceContext src d then ofLocal (transformLocalDecl cl tbl d)
    else if siblingOfSource src d then (ofLookup (lookupDecl destL d), tbl)
    else (⟨some d, none, false⟩, tbl)

/-! Fragment injection: DescribeInjectionTarget (SemaInject.cpp:404-415),
InvalidInjection (426-430), InjectFragment (840-887),
ApplySourceCodeModifications (1057-1063). -/

inductive FragKind
  | classFragment
  | namespaceFragment
deriving DecidableEq, Repr

inductive CtxKind
  | record
  | namespaceCtx
  | translationUnit
  | functionOrMethod
deriving DecidableEq, Repr

def CtxKind.isRecord : CtxKind → Bool
  | CtxKind.record => true
  | _ => false

def CtxKind.isFileContext : CtxKind → Bool
  | CtxKind.namespaceCtx => true
  | CtxKind.translationUnit => true
  | _ => false

/-- Embeds DescribeInjectionTarget (SemaInject.cpp:404-415); the
llvm_unreachable default cannot arise over these four context kinds. -/
def describeInjectionTarget : CtxKind → Nat
  | CtxKind.functionOrMethod => 0
  | CtxKind.record => 1
  | CtxKind.namespaceCtx => 2
  | CtxKind.translationUnit => 3

structure InjDiag where
  sk : Nat
  target : Nat
deriving DecidableEq, Repr

/-- Embeds InvalidInjection (SemaInject.cpp:426-430): emits
err_invalid_injection with the injection-kind selector SK and the
description of the target context. -/
def invalidInjection (sk : Nat) (dc : CtxKind) : InjDiag :=
  ⟨sk, describeInjectionTarget dc⟩

structure FragmentInjection where
  kind : FragKind
  members : List Nat
deriving DecidableEq, Repr

structure InjectState where
  outDecls : List (Option Nat)
  injecteeInvalid : Bool
  diags : List InjDiag
  topLevelHandled : List (Option Nat)
deriving DecidableEq, Repr

/-- Embeds InjectFragment (SemaInject.cpp:840-887). The kind of fragment
must broadly match the kind of the current context: a class fragment in a
non-record context is rejected with InvalidInjection class 1, a namespace
fragment in a non-file context with class 0, both before any member is
cloned. Otherwise each member is injected via InjectDecl (whose
TransformLocalDecl clone, living in TreeTransform.h, is modelled from the
spec as cloneM, none meaning a failed clone); a failed clone marks the
injectee invalid; every result, including a null one, is appended to the
output; namespace members are also handed to the top-level consumer. The
return value is Injectee->isInvalidDecl(), exactly as in the source. -/
def injectFragment (cloneM : Nat → Option Nat) (inj : FragmentInjection)
    (target : CtxKind) (invalid0 : Bool) : Bool × InjectState :=
  if inj.kind == FragKind.classFragment && !target.isRecord then
    (false, ⟨[], invalid0, [invalidInjection 1 target], []⟩)
  else if inj.kind == FragKind.namespaceFragment && !target.isFileContext then
    (false, ⟨[], invalid0, [invalidInjection 0 target], []⟩)
  else
    let stF := inj.members.foldl
      (fun st m =>
        let r := cloneM m
        (⟨st.outDecls ++ [r], st.injecteeInvalid || r.isNone, st.diags,
          if inj.kind == FragKind.namespaceFragment
          then st.topLevelHandled ++ [r] else st.topLevelHandled⟩ : InjectState))
      (⟨[], invalid0, [], []⟩ : InjectState)
    (stF.injecteeInvalid, stF)

/-- Embeds ApplySourceCodeModifications (SemaInject.cpp:1057-1063) with
ApplyInjection (1026-1050) taken on its fragment path: the loop computes
Ok &= ApplyInjection(...) for every pending injection, never breaking
early, and returns the conjunction of the individual return values; the
accumulated list records the effect of every injection in order. -/
def applySourceCodeModifications (cloneM : Nat → Option Nat)
    (injections : List (FragmentInjection × CtxKind)) :
    Bool × List InjectState :=
  injections.foldl
    (fun acc p =>
      let r := injectFragment cloneM p.1 p.2 false
      (acc.1 && r.1, acc.2 ++ [r.2]))
    (true, [])

/-! Modification traits: the tail of CopyDeclaration
(SemaInject.cpp:921-1015). -/

inductive AccessMod
  | noAccess
  | publicAccess
  | privateAccess
  | protectedAccess
  | defaultAccess
deriving DecidableEq, Repr

inductive StorageMod
  | noStorage
  | staticStorage
  | automaticStorage
  | threadLocalStorage
deriving DecidableEq, Repr

structure Mods where
  access : AccessMod
  storage : StorageMod
  makeConstexpr : Bool
  makeVirtual : Bool
  makePure : Bool
deriving DecidableEq, Repr

inductive TKind
  | varDecl
  | destructorDecl (isDefaulted isDeleted isDefined : Bool)
  | methodDecl (isDefaulted isDeleted isDefined : Bool)
  | plainFunction
  | otherKind
deriving DecidableEq, Repr

inductive ConstexprStep
  | markVarConstexpr
  | errConstexprDestructor
  | derefNullVar
  | errVirtualNonFunction
deriving DecidableEq, Repr

/-- Embeds the make_constexpr branch of CopyDeclaration
(SemaInject.cpp:975-992), in source order. dyn_cast to VarDecl succeeds for
a variable (setConstexpr plus CheckVariableDeclarationType); a destructor
is err_declration_cannot_be_made_constexpr; any other FunctionDecl reaches
the statement setting constexpr through the variable Var, which at that
point is the null pointer left over from the failed dyn_cast in the if
condition — a null dereference, the function itself is never marked;
everything else is err_virtual_non_function. -/
def constexprStep : TKind → ConstexprStep
  | TKind.varDecl => ConstexprStep.markVarConstexpr
  | TKind.destructorDecl _ _ _ => ConstexprStep.errConstexprDestructor
  | TKind.methodDecl _ _ _ => ConstexprStep.derefNullVar
  | TKind.plainFunction => ConstexprStep.derefNullVar
  | TKind.otherKind => ConstexprStep.errVirtualNonFunction

inductive TraitOutcome
  | okResult (accessSet : Option Nat) (constexprApplied : Bool)
      (virtualSet : Bool) (pureApplied : Bool)
  | errNonMemberAccess
  | fatalInvalidAccess
  | errConstexprDestructor
  | derefNullVar
  | errVirtualNonFunction
  | errCannotMakePure (sel : Nat)
deriving DecidableEq, Repr

/-- Embeds the access branch of CopyDeclaration (SemaInject.cpp:954-973):
a requested access requires the owning context of the result to be a
record; public, private and protected set the access (recorded as 1, 2, 3);
the Default trait value falls into llvm_unreachable. -/
def accessStep (ownerIsRecord : Bool) (a : AccessMod) :
    Except TraitOutcome (Option Nat) :=
  if a = AccessMod.noAccess then Except.ok none
  else if !ownerIsRecord then Except.error TraitOutcome.errNonMemberAccess
  else
    match a with
    | AccessMod.publicAccess => Except.ok (some 1)
    | AccessMod.privateAccess => Except.ok (some 2)
    | AccessMod.protectedAccess => Except.ok (some 3)
    | _ => Except.error TraitOutcome.fatalInvalidAccess

/-- Runs the make_constexpr branch when the trait is requested, threading
the outcome of constexprStep into the early-return discipline of
CopyDeclaration. -/
def constexprStepRun (k : TKind) (c : Bool) : Except TraitOutcome Bool :=
  if !c then Except.ok false
  else
    match constexprStep k with
    | ConstexprStep.markVarConstexpr => Except.ok true
    | ConstexprStep.errConstexprDestructor =>
        Except.error TraitOutcome.errConstexprDestructor
    | ConstexprStep.derefNullVar => Except.error TraitOutcome.derefNullVar
    | ConstexprStep.errVirtualNonFunction =>
        Except.error TraitOutcome.errVirtualNonFunction

/-- Embeds the make_virtual and make_pure branch of CopyDeclaration
(SemaInject.cpp:994-1015): virtual requires a CXXMethodDecl (destructors
included) and sets virtual-as-written; the pure flag is consulted only
inside the virtual branch, where a defaulted, deleted or defined method is
a distinct err_cannot_make_pure_virtual error, checked in that order, with
diagnostic selectors 1, 2 and 0 respectively; otherwise CheckPureMethod is
invoked. -/
def virtualStep (k : TKind) (virt pureReq : Bool) (accessSet : Option Nat)
    (ce : Bool) : TraitOutcome :=
  if !virt then TraitOutcome.okResult accessSet ce false false
  else
    match k with
    | TKind.methodDecl df dl dfn | TKind.destructorDecl df dl dfn =>
      if pureReq then
        if df then TraitOutcome.errCannotMakePure 1
        else if dl then TraitOutcome.errCannotMakePure 2
        else if dfn then TraitOutcome.errCannotMakePure 0
        else TraitOutcome.okResult accessSet ce true true
      else TraitOutcome.okResult accessSet ce true false
    | _ => TraitOutcome.errVirtualNonFunction

/-- The same trait record with the make_pure request cleared. -/
def purelessMods (m : Mods) : Mods :=
  ⟨m.access, m.storage, m.makeConstexpr, m.makeVirtual, false⟩

/-- Embeds the trait-application tail of CopyDeclaration
(SemaInject.cpp:954-1015) in source order: access, make_constexpr, then
make_virtual with nested make_pure, stopping at the first violation. -/
def applyTraits (k : TKind) (ownerIsRecord : Bool) (m : Mods) : TraitOutcome :=
  match accessStep ownerIsRecord m.access with
  | Except.error e => e
  | Except.ok accessSet =>
    match constexprStepRun k m.makeConstexpr with
    | Except.error e => e
    | Except.ok ce => virtualStep k m.makeVirtual m.makePure accessSet ce

/-! Static rewrite: RewriteAsStaticMember (SemaInject.cpp:623-630),
RewriteAsStaticMemberVariable (633-678), RewriteAsStaticMemberFunction
(681-683), isClassMemberDecl (889-891) and the build dispatch of
CopyDeclaration (944-948). -/

inductive QType
  | base (t : Nat)
  | reflectedTy (t : Nat)
deriving DecidableEq, Repr

/-- Embeds the reflected-type stripping of TransformInjectedType
(SemaInject.cpp:511-520): a type built from a reflected-type marker is
canonicalized to its underlying type. -/
def canonicalOf : QType → QType
  | QType.base t => QType.base t
  | QType.reflectedTy t => QType.base t

structure FieldInfo where
  fieldId : Nat
  name : Nat
  ty : QType
  inClassInit : Option Nat
deriving DecidableEq, Repr

structure MethodInfo where
  methodId : Nat
  name : Nat
  ty : QType
  isInstance : Bool
deriving DecidableEq, Repr

structure StaticVarResult where
  name : Nat
  ty : QType
  storageStatic : Bool
  init : Option Nat
  initConstantEvaluated : Bool
  initOwnerSwitched : Bool
deriving DecidableEq, Repr

structure StaticFnResult where
  name : Nat
  ty : QType
  isInstance : Bool
deriving DecidableEq, Repr

inductive NewDecl
  | staticVar (v : StaticVarResult)
  | staticFn (f : StaticFnResult)
  | clonedDecl (id : Nat)
deriving DecidableEq, Repr

abbrev RemapMap := List (Nat × NewDecl)

/-- Embeds RewriteAsStaticMemberVariable (SemaInject.cpp:633-678): a new
VarDecl with static storage is created in the current owner, with the
transformed declaration name (a plain identifier is preserved) and the
canonical transformed type; the mapping from the original field to the new
variable is registered via transformedLocalDecl; when the field has an
in-class initializer it is transformed (modelled from the spec as
transInit, since TransformInitializer lives in TreeTransform.h) under a
pushed constant-evaluation expression context with the semantic context
switched to the declaration context of the new variable. The original
field is not modified. -/
def rewriteAsStaticMemberVariable (transInit : Nat → Nat) (tbl : RemapMap)
    (d : FieldInfo) : NewDecl × RemapMap :=
  let r : StaticVarResult :=
    ⟨d.name, canonicalOf d.ty, true, d.inClassInit.map transInit,
      d.inClassInit.isSome, d.inClassInit.isSome⟩
  (NewDecl.staticVar r, (d.fieldId, NewDecl.staticVar r) :: tbl)

/-- Modelled from the spec: RewriteAsStaticMemberFunction
(SemaInject.cpp:681-683) forwards to TransformLocalCXXMethodDecl in
TreeTransform.h, which is not part of this repository snapshot; per the
spec, section 4.3, it produces a new non-instance function preserving name
and type, registered in the remap table in place of the original. -/
def rewriteAsStaticMemberFunction (tbl : RemapMap) (m : MethodInfo) :
    NewDecl × RemapMap :=
  let r : StaticFnResult := ⟨m.name, canonicalOf m.ty, false⟩
  (NewDecl.staticFn r, (m.methodId, NewDecl.staticFn r) :: tbl)

/-- Modelled from the spec: InjectDecl (SemaInject.cpp:582-585) forwards to
TransformLocalDecl in TreeTransform.h, which is not part of this repository
snapshot; it clones the declaration and registers the mapping. -/
def injectDeclClone (tbl : RemapMap) (i : Nat) : NewDecl × RemapMap :=
  (NewDecl.clonedDecl i, (i, NewDecl.clonedDecl i) :: tbl)

inductive CopyInj
  | fieldD (f : FieldInfo)
  | methodD (m : MethodInfo)
  | otherD (id : Nat)
deriving DecidableEq, Repr

/-- Embeds RewriteAsStaticMember (SemaInject.cpp:623-630): methods go to
the static member function rewrite, fields to the static member variable
rewrite, anything else to InjectDecl. -/
def rewriteAsStaticMember (transInit : Nat → Nat) (tbl : RemapMap) :
    CopyInj → NewDecl × RemapMap
  | CopyInj.methodD m => rewriteAsStaticMemberFunction tbl m
  | CopyInj.fieldD f => rewriteAsStaticMemberVariable transInit tbl f
  | CopyInj.otherD i => injectDeclClone tbl i

/-- Embeds isClassMemberDecl (SemaInject.cpp:889-891). -/
def isClassMemberDecl : CopyInj → Bool
  | CopyInj.fieldD _ => true
  | CopyInj.methodD _ => true
  | CopyInj.otherD _ => false

inductive BuildPath
  | staticRewrite
  | normalClone
deriving DecidableEq, Repr

/-- Embeds the build dispatch of CopyDeclaration (SemaInject.cpp:944-948):
a class member with requested static storage is rewritten as a static
member instead of being cloned normally. -/
def copyDeclarationBuildPath (inj : CopyInj) (st : StorageMod) : BuildPath :=
  if isClassMemberDecl inj && (st == StorageMod.staticStorage) then
    BuildPath.staticRewrite
  else BuildPath.normalClone

/-! Concrete inputs used by witness theorems. -/

def srcW : Option SourceInfo := some ⟨0, none⟩

def destLW : Nat → List SDecl := fun _ => []

def clW : SDecl → SDecl := fun x => ⟨x.declId + 100, x.name, x.kind, x.ctxChain⟩

def dW : SDecl := ⟨1, some 2, SKind.fieldDecl, [0]⟩

/-! Helper lemmas. -/

theorem findRemap_none_not_mem (tbl : RemapTable) (i : Nat)
    (h : findRemap tbl i = none) : i ∉ tbl.map Prod.fst := by
  intro hmem
  rcases List.mem_map.mp hmem with ⟨p, hp, hfst⟩
  unfold findRemap at h
  cases hf : tbl.find? fun q => q.1 == i with
  | some q => rw [hf] at h; cases h
  | none =>
    have hall := List.find?_eq_none.mp hf p hp
    apply hall
    simp [hfst]

theorem findRemap_cons_self (tbl : RemapTable) (i : Nat) (x : SDecl) :
    findRemap ((i, x) :: tbl) i = some x := by
  simp [findRemap, List.find?]

theorem addReplacements_cons (f : Nat) (fs : List Nat) (t : PType)
    (ts : List PType) (c : Int) (cs : List Int) :
    addReplacements (f :: fs) (t :: ts) (c :: cs)
      = (f, ⟨t, c⟩) :: addReplacements fs ts cs := by
  simp [addReplacements]

theorem addReplacements_find (frag : List Nat) (ftys : List PType)
    (caps : List Int) (i : Nat) (hnd : frag.Nodup) (h2 : i < frag.length)
    (h3 : i < ftys.length) (h1 : i < caps.length) :
    (addReplacements frag ftys caps).find? (fun q => q.1 == frag[i])
      = some (frag[i], ⟨ftys[i], caps[i]⟩) := by
  induction frag generalizing ftys caps i with
  | nil => exact absurd h2 (Nat.not_lt_zero i)
  | cons f fs ih =>
    cases ftys with
    | nil => exact absurd h3 (Nat.not_lt_zero i)
    | cons t ts =>
      cases caps with
      | nil => exact absurd h1 (Nat.not_lt_zero i)
      | cons c cs =>
        cases i with
        | zero =>
          rw [addReplacements_cons]
          simp [List.find?]
        | succ j =>
          have hj2 : j < fs.length := Nat.lt_of_succ_lt_succ h2
          have hj3 : j < ts.length := Nat.lt_of_succ_lt_succ h3
          have hj1 : j < cs.length := Nat.lt_of_succ_lt_succ h1
          have hf : f ∉ fs := (List.nodup_cons.mp hnd).1
          have hmem : fs[j] ∈ fs := List.getElem_mem hj2
          rw [addReplacements_cons]
          rw [List.find?_cons_of_neg _ (by
            simp only [List.getElem_cons_succ]
            simp only [beq_iff_eq]
            exact fun hEq => hf (by rw [hEq]; exact hmem))]
          simpa using ih ts cs j (List.nodup_cons.mp hnd).2 hj2 hj3 hj1

theorem createPlaceholders_referenceCaptures (vars : List SVar) :
    createPlaceholders (referenceCaptures vars) = vars.map createPlaceholder := by
  induction vars with
  | nil => rfl
  | cons v vs ih =>
    have hstep : createPlaceholders (referenceCaptures (v :: vs))
        = createPlaceholder v :: createPlaceholders (referenceCaptures vs) := rfl
    rw [hstep, ih, List.map_cons]

/-! Claim theorems. -/

/-- Claim C1: SourceCodeInjector::TransformDecl resolves every declaration
reference in the fixed order remap table, local transform with
registration, sibling name lookup, reuse of the original; consequently the
remap-table keys stay pairwise distinct (every distinct source declaration
is registered at most once — the table either is unchanged or gains exactly
the one new key, and only when that key was absent), and resolving the same
source declaration twice within one injection yields the identical outcome,
leaving the table unchanged the second time. -/
theorem transformDecl_memo_idem (src : Option SourceInfo)
    (destL : Nat → List SDecl) (cl : SDecl → SDecl) (tbl : RemapTable)
    (d : SDecl) (hnd : (tbl.map Prod.fst).Nodup) :
    (((transformDecl src destL cl tbl d).2.map Prod.fst).Nodup)
    ∧ ((transformDecl src destL cl tbl d).2 = tbl
        ∨ ((transformDecl src destL cl tbl d).2 = (d.declId, cl d) :: tbl
            ∧ findRemap tbl d.declId = none))
    ∧ transformDecl src destL cl (transformDecl src destL cl tbl d).2 d
        = transformDecl src destL cl tbl d := by
  cases hfind : findRemap tbl d.declId with
  | some r =>
    refine ⟨?_, Or.inl ?_, ?_⟩ <;> simp [transformDecl, hfind, hnd]
  | none =>
    have hne := findRemap_none_not_mem tbl d.declId hfind
    cases hin : inSourceContext src d with
    | true =>
      refine ⟨?_, Or.inr ⟨?_, rfl⟩, ?_⟩ <;>
        simp [transformDecl, hfind, hin, ofLocal, transformLocalDecl,
          findRemap_cons_self, List.nodup_cons, hnd, hne]
    | false =>
      cases hsib : siblingOfSource src d with
      | true =>
        refine ⟨?_, Or.inl ?_, ?_⟩ <;>
          simp [transformDecl, hfind, hin, hsib, hnd]
      | false =>
        refine ⟨?_, Or.inl ?_, ?_⟩ <;>
          simp [transformDecl, hfind, hin, hsib, hnd]

/-- Witness for transformDecl_memo_idem: an empty table and a declaration
owned by the source context; the declaration is cloned and registered, and
resolving it again returns the registered clone with the table unchanged. -/
theorem transformDecl_memo_idem_witness :
    ((([] : RemapTable).map Prod.fst).Nodup)
    ∧ ((((transformDecl srcW destLW clW [] dW).2.map Prod.fst).Nodup)
      ∧ ((transformDecl srcW destLW clW [] dW).2 = ([] : RemapTable)
          ∨ ((transformDecl srcW destLW clW [] dW).2 = (dW.declId, clW dW) :: []
              ∧ findRemap [] dW.declId = none))
      ∧ transformDecl srcW destLW clW (transformDecl srcW destLW clW [] dW).2 dW
          = transformDecl srcW destLW clW [] dW) :=
  ⟨by decide, transformDecl_memo_idem srcW destLW clW [] dW (by decide)⟩

/-- Claim C2, evaluated at the deciding inputs of LookupDecl: when lookup
in the destination finds nothing, the code returns the original declaration
in every case — with the err_capture_non_static diagnostic (selector 1) for
a field, silently for an instance method, and with selector 0 for a static
method — so an instance member is NOT a hard failure, contrary to the claim
and to the comment inside LookupDecl itself; more than one candidate is the
fatal llvm_unreachable condition, as claimed. -/
theorem lookupDecl_empty_and_ambiguous_eval :
    lookupDecl (fun _ => []) ⟨1, some 5, SKind.fieldDecl, [0]⟩
      = ⟨some ⟨1, some 5, SKind.fieldDecl, [0]⟩, some 1, false⟩
    ∧ lookupDecl (fun _ => []) ⟨2, some 6, SKind.methodDecl true, [0]⟩
      = ⟨some ⟨2, some 6, SKind.methodDecl true, [0]⟩, none, false⟩
    ∧ lookupDecl (fun _ => []) ⟨3, some 7, SKind.methodDecl false, [0]⟩
      = ⟨some ⟨3, some 7, SKind.methodDecl false, [0]⟩, some 0, false⟩
    ∧ lookupDecl
        (fun _ => [⟨8, some 9, SKind.otherDecl, []⟩, ⟨10, some 9, SKind.otherDecl, []⟩])
        ⟨4, some 9, SKind.fieldDecl, [0]⟩
      = ⟨none, none, true⟩ := by
  decide

/-- Claim C3: with placeholder replacement active, a reference to the i-th
placeholder registered by AddReplacements is transformed into a
constant-value node carrying the i-th captured value at the i-th field
type, wrapping the original reference for diagnostics only; it is neither a
live reference to the original variable nor a rebuilt clone of the
placeholder reference. -/
theorem placeholder_substitution_constant (frag : List Nat)
    (ftys : List PType) (caps : List Int) (i : Nat) (hnd : frag.Nodup)
    (h2 : i < frag.length) (h3 : i < ftys.length) (h1 : i < caps.length) :
    transformDeclRefExpr true (addReplacements frag ftys caps) frag[i]
      = OExpr.constantExpr (OExpr.wrapped ftys[i] (OExpr.declRef frag[i])) caps[i]
    ∧ transformDeclRefExpr true (addReplacements frag ftys caps) frag[i]
        ≠ OExpr.declRef frag[i]
    ∧ transformDeclRefExpr true (addReplacements frag ftys caps) frag[i]
        ≠ OExpr.rebuiltRef frag[i] := by
  have hf := addReplacements_find frag ftys caps i hnd h2 h3 h1
  refine ⟨?_, ?_, ?_⟩ <;> simp [transformDeclRefExpr, hf]

/-- Witness for placeholder_substitution_constant: two placeholders with
captured values 7 and 9; the reference to the second placeholder becomes
the constant 9 at the second field type. -/
theorem placeholder_substitution_witness :
    (([4, 5] : List Nat).Nodup ∧ 1 < ([4, 5] : List Nat).length
      ∧ 1 < ([PType.dependent, PType.concrete 3] : List PType).length
      ∧ 1 < ([7, 9] : List Int).length)
    ∧ (transformDeclRefExpr true
          (addReplacements [4, 5] [PType.dependent, PType.concrete 3] [7, 9])
          (([4, 5] : List Nat)[1])
        = OExpr.constantExpr
            (OExpr.wrapped (([PType.dependent, PType.concrete 3] : List PType)[1])
              (OExpr.declRef (([4, 5] : List Nat)[1])))
            (([7, 9] : List Int)[1])
      ∧ transformDeclRefExpr true
          (addReplacements [4, 5] [PType.dependent, PType.concrete 3] [7, 9])
          (([4, 5] : List Nat)[1])
          ≠ OExpr.declRef (([4, 5] : List Nat)[1])
      ∧ transformDeclRefExpr true
          (addReplacements [4, 5] [PType.dependent, PType.concrete 3] [7, 9])
          (([4, 5] : List Nat)[1])
          ≠ OExpr.rebuiltRef (([4, 5] : List Nat)[1])) :=
  ⟨⟨by decide, by decide, by decide, by decide⟩,
    placeholder_substitution_constant [4, 5] [PType.dependent, PType.concrete 3]
      [7, 9] 1 (by decide) (by decide) (by decide) (by decide)⟩

/-- Claim C4, evaluated: the batch loop applies every injection and ANDs
the return values without short-circuiting (in a batch of three with an
invalid second request, the first and third are still applied and their
declarations appended), but the per-injection return value of
InjectFragment is Injectee->isInvalidDecl() — false on success and true
when a member clone fails — so a batch consisting of one fully successful
injection reports overall failure, contrary to the claim and to the doc
comment of ApplySourceCodeModifications. -/
theorem applyBatch_and_reporting_eval :
    applySourceCodeModifications (fun m => some (m + 100))
        [(⟨FragKind.classFragment, [1]⟩, CtxKind.record)]
      = (false, [⟨[some 101], false, [], []⟩])
    ∧ injectFragment (fun _ => none) ⟨FragKind.classFragment, [5]⟩
        CtxKind.record false
      = (true, ⟨[none], true, [], []⟩)
    ∧ applySourceCodeModifications (fun m => some (m + 100))
        [(⟨FragKind.classFragment, [1]⟩, CtxKind.record),
         (⟨FragKind.classFragment, [2]⟩, CtxKind.namespaceCtx),
         (⟨FragKind.classFragment, [3]⟩, CtxKind.record)]
      = (false, [⟨[some 101], false, [], []⟩,
                 ⟨[], false, [⟨1, 2⟩], []⟩,
                 ⟨[some 103], false, [], []⟩]) := by
  decide

/-- Claim C5, evaluated: injecting a class fragment into a non-record
context fails before any cloning with diagnostic class 1 and zero new
declarations, as claimed; injecting a namespace fragment into a non-file
context also fails before any cloning with zero new declarations, but with
diagnostic class 0 — not class 2 as the claim states. -/
theorem injectFragment_kind_mismatch_eval :
    injectFragment (fun m => some m) ⟨FragKind.classFragment, [10, 11]⟩
        CtxKind.namespaceCtx false
      = (false, ⟨[], false, [⟨1, 2⟩], []⟩)
    ∧ injectFragment (fun m => some m) ⟨FragKind.classFragment, [10]⟩
        CtxKind.functionOrMethod false
      = (false, ⟨[], false, [⟨1, 0⟩], []⟩)
    ∧ injectFragment (fun m => some m) ⟨FragKind.namespaceFragment, [10]⟩
        CtxKind.record false
      = (false, ⟨[], false, [⟨0, 1⟩], []⟩)
    ∧ injectFragment (fun m => some m) ⟨FragKind.namespaceFragment, [10]⟩
        CtxKind.functionOrMethod false
      = (false, ⟨[], false, [⟨0, 0⟩], []⟩) := by
  decide

/-- Counterexample to claim C6 as stated: requesting make_pure=true with
make_virtual=false on a method does not fail — trait application succeeds
and the requested access trait is still applied. -/
theorem pure_without_virtual_not_rejected :
    applyTraits (TKind.methodDecl false false false) true
        ⟨AccessMod.publicAccess, StorageMod.noStorage, false, false, true⟩
      = TraitOutcome.okResult (some 1) false false false := by
  decide

/-- Claim C6 (amended): when make_virtual is false the make_pure flag is
never consulted — the outcome of trait application is identical to that of
the same trait record with make_pure cleared, so no error is reported on
account of make_pure and the other requested traits are applied normally. -/
theorem applyTraits_pure_ignored_without_virtual (k : TKind)
    (ownerIsRecord : Bool) (m : Mods) (h : m.makeVirtual = false) :
    applyTraits k ownerIsRecord m
      = applyTraits k ownerIsRecord (purelessMods m) := by
  unfold applyTraits purelessMods
  dsimp only
  rw [h]
  cases accessStep ownerIsRecord m.access with
  | error e => rfl
  | ok accessSet =>
    cases constexprStepRun k m.makeConstexpr with
    | error e => rfl
    | ok ce => simp [virtualStep]

/-- Witness for applyTraits_pure_ignored_without_virtual at a method with
requested public access, make_pure=true and make_virtual=false. -/
theorem applyTraits_pure_ignored_witness :
    (Mods.makeVirtual
        ⟨AccessMod.publicAccess, StorageMod.noStorage, false, false, true⟩ = false)
    ∧ applyTraits (TKind.methodDecl false false false) true
        ⟨AccessMod.publicAccess, StorageMod.noStorage, false, false, true⟩
      = applyTraits (TKind.methodDecl false false false) true
          (purelessMods
            ⟨AccessMod.publicAccess, StorageMod.noStorage, false, false, true⟩) :=
  ⟨rfl, applyTraits_pure_ignored_without_virtual _ _ _ rfl⟩

/-- Claim C7, evaluated: make_constexpr marks a variable constexpr (with
revalidation), hard-errors on a destructor, and hard-errors with the
err_virtual_non_function diagnostic on a non-variable non-function
declaration, all as claimed; but on a non-destructor function or method the
code dereferences the null VarDecl pointer left from the failed dyn_cast
instead of marking the function constexpr. -/
theorem constexprStep_eval :
    constexprStep TKind.varDecl = ConstexprStep.markVarConstexpr
    ∧ constexprStep (TKind.destructorDecl false false false)
        = ConstexprStep.errConstexprDestructor
    ∧ constexprStep TKind.plainFunction = ConstexprStep.derefNullVar
    ∧ constexprStep (TKind.methodDecl false false false)
        = ConstexprStep.derefNullVar
    ∧ constexprStep TKind.otherKind = ConstexprStep.errVirtualNonFunction := by
  decide

/-- Counterexample to claim C8 as stated: the scope whose entity is the
enclosing function is itself searched by FindCaptures (the trailing search
after the while loop), so a local variable with an initializer declared in
the function scope is captured, while the claimed walk that excludes the
function scope would capture nothing. -/
theorem findCaptures_searches_function_scope :
    findCaptures [⟨some 7, [⟨0, 1, true, true⟩]⟩] (some 7) = [⟨0, 1, true, true⟩]
    ∧ findCapturesClaimExclusive [⟨some 7, [⟨0, 1, true, true⟩]⟩] (some 7) = []
    ∧ findCaptures [⟨some 7, [⟨0, 1, true, true⟩]⟩] (some 7)
        ≠ findCapturesClaimExclusive [⟨some 7, [⟨0, 1, true, true⟩]⟩] (some 7) := by
  decide

/-- Claim C8 (amended): capture collection walks the scope chain from the
innermost scope outward up to AND including the first scope whose entity is
the enclosing function, collecting in scope order exactly the declarations
that are local variables or parameters with an initializer, and each
capture is referenced through an lvalue-to-rvalue conversion — a value
read, never an address. -/
theorem findCaptures_scope_walk (chain : List SScope) (fn : Option Nat)
    (s : SScope) (vars : List SVar) :
    findCaptures chain fn = collectScopes (scopesThroughFunction chain fn)
    ∧ findCapturesInScope s
        = s.scopeDecls.filter (fun v => v.isLocalVarDeclOrParm && v.hasInit)
    ∧ referenceCaptures vars
        = vars.map (fun v => CExprNode.lvalueToRValue (CExprNode.declRef v)) := by
  refine ⟨?_, rfl, rfl⟩
  induction chain with
  | nil => rfl
  | cons s0 rest ih =>
    by_cases h : s0.entity = fn
    · simp [findCaptures, scopesThroughFunction, collectScopes, h]
    · simp [findCaptures, scopesThroughFunction, collectScopes, h, ih]

/-- Claim C9: exactly one placeholder is created per capture, in capture
order (the placeholder list has the same length and the i-th placeholder
corresponds to the i-th capture); each placeholder bears the identifier of
the captured variable, is a constexpr static declaration of dependent type,
implicit, initialized with the opaque sentinel, and marked referenced and
used. -/
theorem createPlaceholders_per_capture (vars : List SVar) (i : Nat)
    (h : i < vars.length) :
    (createPlaceholders (referenceCaptures vars)).length = vars.length
    ∧ (createPlaceholders (referenceCaptures vars))[i]?
        = some ⟨vars[i].name, PType.dependent, true, true, true,
            PInit.sentinel, true, true⟩ := by
  rw [createPlaceholders_referenceCaptures]
  constructor
  · simp
  · rw [List.getElem?_map, List.getElem?_eq_getElem h]
    rfl

/-- Witness for createPlaceholders_per_capture: a single captured variable
named 2 yields a single placeholder named 2 with all required flags. -/
theorem createPlaceholders_per_capture_witness :
    0 < ([⟨1, 2, true, true⟩] : List SVar).length
    ∧ ((createPlaceholders (referenceCaptures [⟨1, 2, true, true⟩])).length
          = ([⟨1, 2, true, true⟩] : List SVar).length
      ∧ (createPlaceholders (referenceCaptures [⟨1, 2, true, true⟩]))[0]?
          = some ⟨2, PType.dependent, true, true, true, PInit.sentinel, true, true⟩) :=
  ⟨by decide, createPlaceholders_per_capture [⟨1, 2, true, true⟩] 0 (by decide)⟩

/-- Claim C10: a class member (field or method) with requested static
storage takes the static-rewrite path instead of the normal cloning path;
the rewrite produces a new non-instance declaration preserving the name,
carrying the canonical transformed type, with a field in-class initializer
re-evaluated (under a constant-evaluation context switched into the new
owner), and registers the new declaration in the remap table in place of
the original, leaving the rest of the table — and the original — untouched. -/
theorem static_rewrite_new_decl (transInit : Nat → Nat) (tbl : RemapMap)
    (f : FieldInfo) (m : MethodInfo) (st : StorageMod)
    (hst : st = StorageMod.staticStorage) :
    copyDeclarationBuildPath (CopyInj.fieldD f) st = BuildPath.staticRewrite
    ∧ copyDeclarationBuildPath (CopyInj.methodD m) st = BuildPath.staticRewrite
    ∧ rewriteAsStaticMember transInit tbl (CopyInj.fieldD f)
        = (NewDecl.staticVar ⟨f.name, canonicalOf f.ty, true,
              f.inClassInit.map transInit, f.inClassInit.isSome,
              f.inClassInit.isSome⟩,
            (f.fieldId, NewDecl.staticVar ⟨f.name, canonicalOf f.ty, true,
              f.inClassInit.map transInit, f.inClassInit.isSome,
              f.inClassInit.isSome⟩) :: tbl)
    ∧ rewriteAsStaticMember transInit tbl (CopyInj.methodD m)
        = (NewDecl.staticFn ⟨m.name, canonicalOf m.ty, false⟩,
            (m.methodId, NewDecl.staticFn ⟨m.name, canonicalOf m.ty, false⟩) :: tbl) := by
  subst hst
  exact ⟨rfl, rfl, rfl, rfl⟩

/-- Witness for static_rewrite_new_decl at a concrete field (with reflected
type and an in-class initializer) and a concrete instance method. -/
theorem static_rewrite_new_decl_witness :
    (StorageMod.staticStorage = StorageMod.staticStorage)
    ∧ (copyDeclarationBuildPath (CopyInj.fieldD ⟨1, 2, QType.reflectedTy 3, some 4⟩)
          StorageMod.staticStorage = BuildPath.staticRewrite
      ∧ copyDeclarationBuildPath (CopyInj.methodD ⟨5, 6, QType.base 7, true⟩)
          StorageMod.staticStorage = BuildPath.staticRewrite
      ∧ rewriteAsStaticMember (fun x => x + 1) []
            (CopyInj.fieldD ⟨1, 2, QType.reflectedTy 3, some 4⟩)
          = (NewDecl.staticVar ⟨2, QType.base 3, true, some 5, true, true⟩,
              [(1, NewDecl.staticVar ⟨2, QType.base 3, true, some 5, true, true⟩)])
      ∧ rewriteAsStaticMember (fun x => x + 1) []
            (CopyInj.methodD ⟨5, 6, QType.base 7, true⟩)
          = (NewDecl.staticFn ⟨6, QType.base 7, false⟩,
              [(5, NewDecl.staticFn ⟨6, QType.base 7, false⟩)])) :=
  ⟨rfl, static_rewrite_new_decl (fun x => x + 1) [] ⟨1, 2, QType.reflectedTy 3, some 4⟩
      ⟨5, 6, QType.base 7, true⟩ StorageMod.staticStorage rfl⟩

end SemaInject
